import Mathlib

/-!
Shallow embedding of `yad2_monitor.py` (class `Yad2CarMonitor`).

The script is a single-run monitor: it loads a JSON state file, scrapes a
total-results counter from a listings page, diffs it against the stored
`last_total`, sends Telegram notifications, and persists the updated state.

Modelling choices:
* `MonitorState` mirrors the JSON blob `self.data`
  (`last_total`, `last_check`, `history`, `seen_car_ids`).
* Effects of one `run()` are captured in a `RunResult`: the final in-memory
  state (`data`), the list of states written to the storage file (`saved`,
  in write order), and the list of messages passed to
  `send_telegram_message` (`sent`, in send order).
* Telegram messages are modelled structurally: one `Msg` constructor per
  call site of `send_telegram_message` in `run()`, and the change message
  built by `format_notification` keeps the fields that vary (header branch,
  totals, diff, listings shown, timestamp) rather than the rendered Hebrew
  HTML string.
* The browser/scraper is abstracted to its observable outputs: the counter
  extraction result (`Option Int`) and the listing summaries that
  `get_new_listings` would return.
* `datetime.now()` is passed in as an opaque timestamp string `now`.
* Python ints are modelled as `Int` (`diff` may be negative); the regex
  digit extraction works on `List Char` with ASCII digits.
-/

namespace Yad2

/-- One element of `self.data['history']`: `{'timestamp': ..., 'total': ...}`
with an optional `'change'` key that is present only on diff-path entries. -/
structure HistoryEntry where
  timestamp : String
  total : Int
  change : Option Int
  deriving DecidableEq, Repr

/-- The persisted JSON blob `self.data`. -/
structure MonitorState where
  last_total : Int
  last_check : Option String
  history : List HistoryEntry
  seen_car_ids : List String
  deriving DecidableEq, Repr

/-- The zero-valued default returned by `load_data` when the storage file is
missing or unparsable (lines 40-45). -/
def defaultState : MonitorState :=
  { last_total := 0, last_check := none, history := [], seen_car_ids := [] }

/-- What `load_data` sees: `none` = file does not exist; `some (.error e)` =
file exists but `json.load` raised; `some (.ok st)` = parsed state. -/
def load_data (file : Option (Except String MonitorState)) : MonitorState :=
  match file with
  | some (Except.ok st) => st
  | some (Except.error _) => defaultState
  | none => defaultState

/-- `save_data` (lines 47-54): stamps `last_check` with the current time and
writes the whole state to the storage file. The written content equals the
returned state. -/
def save_data (st : MonitorState) (now : String) : MonitorState :=
  { st with last_check := some now }

/-- One car summary produced by `get_new_listings` (lines 176-249). -/
structure ListingSummary where
  title : Option String
  price : Option String
  link : Option String
  details : String
  deriving DecidableEq, Repr

/-- Outcome of the HTTPS POST inside `send_telegram_message`:
2xx response, non-2xx response (makes `raise_for_status` throw),
or a network error from `requests.post` itself. -/
inductive PostOutcome where
  | ok2xx
  | non2xx (code : Nat)
  | networkError (msg : String)
  deriving DecidableEq, Repr

/-- `send_telegram_message` (lines 251-269): returns `true` on a 2xx
response; every failure is caught and degrades to `false`. Total function:
it never raises to its caller. -/
def send_telegram_message (post : PostOutcome) : Bool :=
  match post with
  | PostOutcome.ok2xx => true
  | PostOutcome.non2xx _ => false
  | PostOutcome.networkError _ => false

/-- Header branch of `format_notification`: the increase header (new-cars
message, lines 275-277) versus the decrease header (lines 278-280). -/
inductive Header where
  | increase
  | decrease
  deriving DecidableEq, Repr

/-- Structural content of the change message built by `format_notification`
(lines 271-298): header branch, the totals line, the URL link, the listing
details section (present only when `new_listings` nonempty and `diff > 0`,
first 3 listings), and the timestamp footer. -/
structure ChangeMessage where
  header : Header
  new_total : Int
  diff : Int
  url : String
  shown_listings : List ListingSummary
  timestamp : String
  deriving DecidableEq, Repr

/-- `format_notification(old_total, new_total, new_listings)`
(lines 271-298). -/
def format_notification (url : String) (old_total new_total : Int)
    (new_listings : List ListingSummary) (now : String) : ChangeMessage :=
  let diff := new_total - old_total
  { header := if diff > 0 then Header.increase else Header.decrease
    new_total := new_total
    diff := diff
    url := url
    shown_listings :=
      if new_listings ≠ [] ∧ diff > 0 then new_listings.take 3 else []
    timestamp := now }

/-- One message handed to `send_telegram_message` in `run()`: the
"could not read counter" warning (lines 315-320), the first-run welcome
(lines 335-341), a change message from `format_notification` (line 361),
the periodic status update (lines 382-388). -/
inductive Msg where
  | counterWarning (url : String)
  | welcome (total : Int) (url : String)
  | change (m : ChangeMessage)
  | status (total : Int) (check_count : Nat) (now : String)
  deriving DecidableEq, Repr

/-- Observable effects of one `run()`. -/
structure RunResult where
  data : MonitorState
  saved : List MonitorState
  sent : List Msg
  deriving DecidableEq, Repr

/-- History truncation on the diff path (lines 371-373):
`if len(history) > 100: history = history[-100:]`. -/
def capHistory (h : List HistoryEntry) : List HistoryEntry :=
  if h.length > 100 then h.drop (h.length - 100) else h

/-- `run()` (lines 300-399), on the non-exceptional paths. Inputs beyond the
state: the counter extraction result `current_total`, the timestamp `now`,
the listings `get_new_listings` would return, and the Telegram POST outcome.
Mirrors the source's branch order: counter `None` → warning and return;
`last_total == 0` → initialize, save, welcome; `diff != 0` → notify, update,
truncate history, save; `diff == 0` → no mutation, periodic status when the
history length is a positive multiple of 50. -/
def run (url : String) (st : MonitorState) (current_total : Option Int)
    (now : String) (listings : List ListingSummary) (post : PostOutcome) :
    RunResult :=
  match current_total with
  | none =>
    { data := st, saved := [], sent := [Msg.counterWarning url] }
  | some current =>
    if st.last_total = 0 then
      let st1 : MonitorState := { st with
        last_total := current,
        history := st.history ++
          [{ timestamp := now, total := current, change := none }] }
      let st2 := save_data st1 now
      { data := st2, saved := [st2], sent := [Msg.welcome current url] }
    else
      let diff := current - st.last_total
      if diff ≠ 0 then
        let new_listings := if diff > 0 then listings else []
        let message := format_notification url st.last_total current
          new_listings now
        let _ok := send_telegram_message post
        let st1 : MonitorState := { st with
          last_total := current,
          history := capHistory (st.history ++
            [{ timestamp := now, total := current, change := some diff }]) }
        let st2 := save_data st1 now
        { data := st2, saved := [st2], sent := [Msg.change message] }
      else
        let check_count := st.history.length
        if check_count % 50 = 0 ∧ check_count > 0 then
          { data := st, saved := [],
            sent := [Msg.status current check_count now] }
        else
          { data := st, saved := [], sent := [] }

/-- The digit runs of a text, first-to-last: `re.findall(r'\d+', text)`
(line 133), via an accumulator holding the current run reversed. -/
def findallDigitsAux (cur : List Char) : List Char → List (List Char)
  | [] => if cur = [] then [] else [cur.reverse]
  | c :: rest =>
    if c.isDigit then findallDigitsAux (c :: cur) rest
    else if cur = [] then findallDigitsAux [] rest
    else cur.reverse :: findallDigitsAux [] rest

/-- `re.findall(r'\d+', text)` on an ASCII-digit alphabet. -/
def findallDigits (text : List Char) : List (List Char) :=
  findallDigitsAux [] text

/-- `int(...)` on a string of decimal digits. -/
def digitsToNat (l : List Char) : Nat :=
  l.foldl (fun a c => 10 * a + (c.toNat - Char.toNat '0')) 0

/-- Counter extraction from a matched text (lines 130-138):
`numbers = re.findall(r'\d+', total_text); total = int(numbers[0])` when
`numbers` is nonempty, else fall through (modelled as `none`). -/
def extract_total (text : List Char) : Option Nat :=
  match findallDigits text with
  | [] => none
  | n :: _ => some (digitsToNat n)

/-- `history[-100:]` as a function: the last `n` elements of a list. -/
def lastN (n : Nat) (l : List α) : List α :=
  l.drop (l.length - n)

/-- Iterated runs (the external scheduler invoking the script repeatedly):
each step supplies the observed total and the timestamp. Listings and the
POST outcome do not affect the persisted state, so they are fixed. -/
def runMany (url : String) (st : MonitorState) :
    List (Int × String) → MonitorState
  | [] => st
  | (cur, now) :: rest =>
    runMany url (run url st (some cur) now [] PostOutcome.ok2xx).data rest

/-- Every step of the sequence is a diff-triggering run: the state before it
is initialized (`last_total ≠ 0`) and the observed total differs. -/
def allDiffSteps (url : String) (st : MonitorState) :
    List (Int × String) → Bool
  | [] => true
  | (cur, now) :: rest =>
    decide (st.last_total ≠ 0) && decide (cur ≠ st.last_total) &&
      allDiffSteps url (run url st (some cur) now [] PostOutcome.ok2xx).data
        rest

/-- The history entries appended over a sequence of diff-triggering runs, in
append order. -/
def entriesOf (url : String) (st : MonitorState) :
    List (Int × String) → List HistoryEntry
  | [] => []
  | (cur, now) :: rest =>
    { timestamp := now, total := cur, change := some (cur - st.last_total) }
      :: entriesOf url
        (run url st (some cur) now [] PostOutcome.ok2xx).data rest

/-! Concrete example states, used to instantiate the theorems. -/

/-- An initialized state: stored total 5, some prior check. -/
def exampleState : MonitorState :=
  { last_total := 5, last_check := some "t0", history := [],
    seen_car_ids := [] }

/-- A plain history entry used to build example histories. -/
def exampleEntry : HistoryEntry :=
  { timestamp := "h", total := 5, change := none }

/-- An uninitialized state, as produced by `load_data` on a fresh file. -/
def exampleFresh : MonitorState :=
  { last_total := 0, last_check := none, history := [], seen_car_ids := [] }

/-- An initialized state whose history holds exactly 50 entries. -/
def exampleHist50 : MonitorState :=
  { last_total := 5, last_check := some "t0",
    history := List.replicate 50 exampleEntry,
    seen_car_ids := [] }

/-- An uninitialized state whose history already holds 100 entries. -/
def exampleFresh100 : MonitorState :=
  { last_total := 0, last_check := none,
    history := List.replicate 100 exampleEntry,
    seen_car_ids := [] }

/-! Reduction lemmas: one per branch of `run`. -/

/-- Counter extraction failed: warning only, nothing else happens. -/
theorem run_none_eq (url : String) (st : MonitorState) (now : String)
    (ls : List ListingSummary) (post : PostOutcome) :
    run url st none now ls post =
      { data := st, saved := [], sent := [Msg.counterWarning url] } := rfl

/-- First-run branch (`last_total == 0`). -/
theorem run_init_eq (url : String) (st : MonitorState) (cur : Int)
    (now : String) (ls : List ListingSummary) (post : PostOutcome)
    (h0 : st.last_total = 0) :
    run url st (some cur) now ls post =
      { data := { st with
          last_total := cur,
          last_check := some now,
          history := st.history ++
            [{ timestamp := now, total := cur, change := none }] },
        saved := [{ st with
          last_total := cur,
          last_check := some now,
          history := st.history ++
            [{ timestamp := now, total := cur, change := none }] }],
        sent := [Msg.welcome cur url] } := by
  simp [run, h0, save_data]

/-- Diff branch (`last_total != 0`, observed total differs). -/
theorem run_diff_eq (url : String) (st : MonitorState) (cur : Int)
    (now : String) (ls : List ListingSummary) (post : PostOutcome)
    (h0 : st.last_total ≠ 0) (hd : cur ≠ st.last_total) :
    run url st (some cur) now ls post =
      { data := { st with
          last_total := cur,
          last_check := some now,
          history := capHistory (st.history ++
            [{ timestamp := now, total := cur,
               change := some (cur - st.last_total) }]) },
        saved := [{ st with
          last_total := cur,
          last_check := some now,
          history := capHistory (st.history ++
            [{ timestamp := now, total := cur,
               change := some (cur - st.last_total) }]) }],
        sent := [Msg.change (format_notification url st.last_total cur
          (if cur - st.last_total > 0 then ls else []) now)] } := by
  have hd0 : cur - st.last_total ≠ 0 := sub_ne_zero_of_ne hd
  simp [run, h0, hd0, save_data]

/-- No-change branch (`diff == 0`). -/
theorem run_noop_eq (url : String) (st : MonitorState) (cur : Int)
    (now : String) (ls : List ListingSummary) (post : PostOutcome)
    (h0 : st.last_total ≠ 0) (he : cur = st.last_total) :
    run url st (some cur) now ls post =
      { data := st, saved := [],
        sent :=
          if st.history.length % 50 = 0 ∧ 0 < st.history.length
          then [Msg.status cur st.history.length now] else [] } := by
  have hd0 : cur - st.last_total = 0 := by omega
  simp only [run, h0, hd0, if_false, ite_false, ne_eq, not_true_eq_false,
    not_false_eq_true, reduceIte]
  split <;> rfl

/-! Claim theorems. -/

/-- C1: for stored `last_total = T > 0` and observed total `T'`, a change
notification is sent iff `T' - T ≠ 0`, and its header is the increase header
exactly when `T' - T > 0`, the decrease header otherwise. -/
theorem change_notification_iff_diff (url : String) (st : MonitorState)
    (cur : Int) (now : String) (ls : List ListingSummary)
    (post : PostOutcome) (hpos : 0 < st.last_total) :
    ((∃ m, Msg.change m ∈ (run url st (some cur) now ls post).sent) ↔
      cur - st.last_total ≠ 0)
    ∧ ∀ m, Msg.change m ∈ (run url st (some cur) now ls post).sent →
        m.header =
          (if 0 < cur - st.last_total then Header.increase
           else Header.decrease) := by
  have h0 : st.last_total ≠ 0 := by omega
  by_cases he : cur = st.last_total
  · rw [run_noop_eq url st cur now ls post h0 he]
    constructor
    · simp only []
      constructor
      · rintro ⟨m, hm⟩
        split at hm <;> simp at hm
      · intro hd
        exact absurd (by omega) hd
    · intro m hm
      simp only [] at hm
      split at hm <;> simp at hm
  · rw [run_diff_eq url st cur now ls post h0 he]
    have hd0 : cur - st.last_total ≠ 0 := sub_ne_zero_of_ne he
    constructor
    · simp [hd0]
    · intro m hm
      simp only [List.mem_singleton, Msg.change.injEq] at hm
      subst hm
      simp [format_notification]

/-- C1 witness: a concrete increase run (stored 5, observed 7). -/
theorem change_notification_iff_diff_witness :
    (0 : Int) < exampleState.last_total
    ∧ (((∃ m, Msg.change m ∈
          (run "u" exampleState (some 7) "t1" [] PostOutcome.ok2xx).sent) ↔
        (7 : Int) - exampleState.last_total ≠ 0)
      ∧ ∀ m, Msg.change m ∈
          (run "u" exampleState (some 7) "t1" [] PostOutcome.ok2xx).sent →
          m.header =
            (if (0 : Int) < 7 - exampleState.last_total then Header.increase
             else Header.decrease)) :=
  ⟨by decide,
    change_notification_iff_diff "u" exampleState 7 "t1" []
      PostOutcome.ok2xx (by decide)⟩

/-- C2: with stored `last_total = 0` and any observed total (including 0),
the run initializes: `last_total` becomes the observed total, a history
entry without a change field is appended, the state is saved, the fixed
welcome message is sent, and no change notification is ever sent. -/
theorem first_run_initializes (url : String) (st : MonitorState) (cur : Int)
    (now : String) (ls : List ListingSummary) (post : PostOutcome)
    (h0 : st.last_total = 0) :
    (run url st (some cur) now ls post).data.last_total = cur
    ∧ (run url st (some cur) now ls post).data.history =
        st.history ++ [{ timestamp := now, total := cur, change := none }]
    ∧ (run url st (some cur) now ls post).saved =
        [(run url st (some cur) now ls post).data]
    ∧ (run url st (some cur) now ls post).sent = [Msg.welcome cur url]
    ∧ ∀ m, Msg.change m ∉ (run url st (some cur) now ls post).sent := by
  rw [run_init_eq url st cur now ls post h0]
  refine ⟨rfl, rfl, rfl, rfl, ?_⟩
  intro m hm
  simp at hm

/-- C2 witness: first run observing a total of 0. -/
theorem first_run_initializes_witness :
    exampleFresh.last_total = 0
    ∧ ((run "u" exampleFresh (some 0) "t1" []
          PostOutcome.ok2xx).data.last_total = 0
      ∧ (run "u" exampleFresh (some 0) "t1" []
          PostOutcome.ok2xx).data.history =
          exampleFresh.history ++
            [{ timestamp := "t1", total := 0, change := none }]
      ∧ (run "u" exampleFresh (some 0) "t1" [] PostOutcome.ok2xx).saved =
          [(run "u" exampleFresh (some 0) "t1" [] PostOutcome.ok2xx).data]
      ∧ (run "u" exampleFresh (some 0) "t1" [] PostOutcome.ok2xx).sent =
          [Msg.welcome 0 "u"]
      ∧ ∀ m, Msg.change m ∉
          (run "u" exampleFresh (some 0) "t1" [] PostOutcome.ok2xx).sent) :=
  ⟨rfl,
    first_run_initializes "u" exampleFresh 0 "t1" [] PostOutcome.ok2xx rfl⟩

/-- C5 counterexample: a run observing the stored total again performs no
save at all, so `last_check` is NOT updated — the claim's "state after save
is identical except for the updated last_check" is false: no state is
written and the in-memory state keeps the old `last_check`. -/
theorem noop_run_save_counterexample :
    (run "u" exampleState (some 5) "t1" [] PostOutcome.ok2xx).saved = []
    ∧ (run "u" exampleState (some 5) "t1" []
        PostOutcome.ok2xx).data.last_check = some "t0"
    ∧ ¬ (run "u" exampleState (some 5) "t1" []
        PostOutcome.ok2xx).data.last_check = some "t1" := by
  decide

/-- C5 amended: a run with `diff == 0` performs no save and leaves the state
byte-for-byte identical, including `last_check` (which is stamped only
inside `save_data`, never reached on this path). -/
theorem noop_run_no_save (url : String) (st : MonitorState) (cur : Int)
    (now : String) (ls : List ListingSummary) (post : PostOutcome)
    (h0 : st.last_total ≠ 0) (he : cur = st.last_total) :
    (run url st (some cur) now ls post).data = st
    ∧ (run url st (some cur) now ls post).saved = [] := by
  rw [run_noop_eq url st cur now ls post h0 he]
  exact ⟨rfl, rfl⟩

/-- C5 witness: concrete no-op run with stored total 5. -/
theorem noop_run_no_save_witness :
    exampleState.last_total ≠ 0
    ∧ (5 : Int) = exampleState.last_total
    ∧ ((run "u" exampleState (some 5) "t1" [] PostOutcome.ok2xx).data =
        exampleState
      ∧ (run "u" exampleState (some 5) "t1" [] PostOutcome.ok2xx).saved = []) :=
  ⟨by decide, by decide,
    noop_run_no_save "u" exampleState 5 "t1" [] PostOutcome.ok2xx
      (by decide) (by decide)⟩

/-- C6: on a `diff == 0` run with initialized positive stored total, the
state is untouched and nothing is saved, and the periodic status message is
sent exactly when the history length is a positive multiple of 50. -/
theorem periodic_status_iff_multiple_of_50 (url : String)
    (st : MonitorState) (cur : Int) (now : String)
    (ls : List ListingSummary) (post : PostOutcome)
    (hpos : 0 < st.last_total) (he : cur = st.last_total) :
    (run url st (some cur) now ls post).data = st
    ∧ (run url st (some cur) now ls post).saved = []
    ∧ (run url st (some cur) now ls post).sent =
        (if st.history.length % 50 = 0 ∧ 0 < st.history.length
         then [Msg.status cur st.history.length now] else []) := by
  have h0 : st.last_total ≠ 0 := by omega
  rw [run_noop_eq url st cur now ls post h0 he]
  exact ⟨rfl, rfl, rfl⟩

/-- C6 witness: a no-op run over a 50-entry history sends the status. -/
theorem periodic_status_iff_multiple_of_50_witness :
    (0 : Int) < exampleHist50.last_total
    ∧ (5 : Int) = exampleHist50.last_total
    ∧ ((run "u" exampleHist50 (some 5) "t1" [] PostOutcome.ok2xx).data =
        exampleHist50
      ∧ (run "u" exampleHist50 (some 5) "t1" [] PostOutcome.ok2xx).saved = []
      ∧ (run "u" exampleHist50 (some 5) "t1" [] PostOutcome.ok2xx).sent =
          (if exampleHist50.history.length % 50 = 0 ∧
              0 < exampleHist50.history.length
           then [Msg.status 5 exampleHist50.history.length "t1"] else [])) :=
  ⟨by decide, by decide,
    periodic_status_iff_multiple_of_50 "u" exampleHist50 5 "t1" []
      PostOutcome.ok2xx (by decide) (by decide)⟩

/-- C7: on a diff-triggering run, a failed Telegram POST (non-2xx or network
error) does not block persistence: `send_telegram_message` totally degrades
to `false`, yet `last_total` is updated, the change entry is appended (with
the cap applied), the save happens, and the persisted state is exactly the
one a successful send would persist. -/
theorem send_failure_still_persists (url : String) (st : MonitorState)
    (cur : Int) (now : String) (ls : List ListingSummary)
    (post : PostOutcome) (h0 : st.last_total ≠ 0)
    (hd : cur ≠ st.last_total)
    (_hfail : send_telegram_message post = false) :
    (run url st (some cur) now ls post).data.last_total = cur
    ∧ (run url st (some cur) now ls post).data.history =
        capHistory (st.history ++
          [{ timestamp := now, total := cur,
             change := some (cur - st.last_total) }])
    ∧ (run url st (some cur) now ls post).saved =
        [(run url st (some cur) now ls post).data]
    ∧ (run url st (some cur) now ls post).data =
        (run url st (some cur) now ls PostOutcome.ok2xx).data := by
  rw [run_diff_eq url st cur now ls post h0 hd,
    run_diff_eq url st cur now ls PostOutcome.ok2xx h0 hd]
  exact ⟨rfl, rfl, rfl, rfl⟩

/-- C7 witness: concrete diff run whose POST gets a 500 response. -/
theorem send_failure_still_persists_witness :
    exampleState.last_total ≠ 0
    ∧ (7 : Int) ≠ exampleState.last_total
    ∧ send_telegram_message (PostOutcome.non2xx 500) = false
    ∧ ((run "u" exampleState (some 7) "t1" []
          (PostOutcome.non2xx 500)).data.last_total = 7
      ∧ (run "u" exampleState (some 7) "t1" []
          (PostOutcome.non2xx 500)).data.history =
          capHistory (exampleState.history ++
            [{ timestamp := "t1", total := 7,
               change := some (7 - exampleState.last_total) }])
      ∧ (run "u" exampleState (some 7) "t1" []
          (PostOutcome.non2xx 500)).saved =
          [(run "u" exampleState (some 7) "t1" []
            (PostOutcome.non2xx 500)).data]
      ∧ (run "u" exampleState (some 7) "t1" []
          (PostOutcome.non2xx 500)).data =
          (run "u" exampleState (some 7) "t1" [] PostOutcome.ok2xx).data) :=
  ⟨by decide, by decide, rfl,
    send_failure_still_persists "u" exampleState 7 "t1" []
      (PostOutcome.non2xx 500) (by decide) (by decide) rfl⟩

/-- C8: when counter extraction returns null, the run sends the fixed
warning message, mutates nothing, and saves nothing. -/
theorem counter_none_warns_no_mutation (url : String) (st : MonitorState)
    (now : String) (ls : List ListingSummary) (post : PostOutcome) :
    (run url st none now ls post).sent = [Msg.counterWarning url]
    ∧ (run url st none now ls post).data = st
    ∧ (run url st none now ls post).saved = [] :=
  ⟨rfl, rfl, rfl⟩

/-- C9: `load_data` on a missing file or on any parse error returns the
zero-valued default state (and, being a total function, never raises). -/
theorem load_missing_or_corrupt_default :
    load_data none = defaultState
    ∧ (∀ e, load_data (some (Except.error e)) = defaultState)
    ∧ defaultState.last_total = 0
    ∧ defaultState.last_check = none
    ∧ defaultState.history = []
    ∧ defaultState.seen_car_ids = [] :=
  ⟨rfl, fun _ => rfl, rfl, rfl, rfl, rfl⟩

/-- C10: the 100-entry cap is not applied on the first-run path: starting
from an uninitialized state whose history already has at least 100 entries,
the run appends without truncating and persists a history longer than
100. -/
theorem first_run_skips_history_cap (url : String) (st : MonitorState)
    (cur : Int) (now : String) (ls : List ListingSummary)
    (post : PostOutcome) (h0 : st.last_total = 0)
    (hlen : 100 ≤ st.history.length) :
    (run url st (some cur) now ls post).data.history =
        st.history ++ [{ timestamp := now, total := cur, change := none }]
    ∧ 100 < (run url st (some cur) now ls post).data.history.length
    ∧ (run url st (some cur) now ls post).saved =
        [(run url st (some cur) now ls post).data] := by
  rw [run_init_eq url st cur now ls post h0]
  refine ⟨rfl, ?_, rfl⟩
  simp only [List.length_append, List.length_cons, List.length_nil]
  omega

/-- C10 witness: first run on a state carrying 100 stale history entries. -/
theorem first_run_skips_history_cap_witness :
    exampleFresh100.last_total = 0
    ∧ 100 ≤ exampleFresh100.history.length
    ∧ ((run "u" exampleFresh100 (some 3) "t1" []
          PostOutcome.ok2xx).data.history =
        exampleFresh100.history ++
          [{ timestamp := "t1", total := 3, change := none }]
      ∧ 100 < (run "u" exampleFresh100 (some 3) "t1" []
          PostOutcome.ok2xx).data.history.length
      ∧ (run "u" exampleFresh100 (some 3) "t1" [] PostOutcome.ok2xx).saved =
          [(run "u" exampleFresh100 (some 3) "t1" []
            PostOutcome.ok2xx).data]) :=
  ⟨rfl, by decide,
    first_run_skips_history_cap "u" exampleFresh100 3 "t1" []
      PostOutcome.ok2xx rfl (by decide)⟩

/-! Lemmas about the digit-run scanner. -/

/-- A non-digit prefix is skipped by the scanner. -/
theorem findallDigitsAux_skip (p t : List Char)
    (hp : ∀ c ∈ p, ¬ c.isDigit) :
    findallDigitsAux [] (p ++ t) = findallDigitsAux [] t := by
  induction p with
  | nil => rfl
  | cons c p ih =>
    have hc : ¬ c.isDigit := hp c (List.mem_cons_self c p)
    have hp' : ∀ x ∈ p, ¬ x.isDigit := fun x hx =>
      hp x (List.mem_cons_of_mem c hx)
    simp only [List.cons_append, findallDigitsAux, hc, if_false,
      reduceIte, if_true]
    exact ih hp'

/-- A run of digits is accumulated (reversed) onto the current run. -/
theorem findallDigitsAux_digits (r : List Char) :
    ∀ (cur t : List Char), (∀ c ∈ r, c.isDigit) →
    findallDigitsAux cur (r ++ t) =
      findallDigitsAux (r.reverse ++ cur) t := by
  induction r with
  | nil => intro cur t _; rfl
  | cons c r ih =>
    intro cur t hr
    have hc : c.isDigit := hr c (List.mem_cons_self c r)
    have hr' : ∀ x ∈ r, x.isDigit := fun x hx =>
      hr x (List.mem_cons_of_mem c hx)
    simp only [List.cons_append, findallDigitsAux, hc, if_true, reduceIte]
    have h2 := ih (c :: cur) t hr'
    have h3 : (c :: r).reverse ++ cur = r.reverse ++ (c :: cur) := by
      simp [List.reverse_cons, List.append_assoc]
    rw [h3]
    exact h2

/-- With a nonempty accumulated run and a remainder that does not start
with a digit, the accumulated run (re-reversed) is emitted first. -/
theorem findallDigitsAux_emit (cur t : List Char) (hc : cur ≠ [])
    (ht : ∀ c, t.head? = some c → ¬ c.isDigit) :
    ∃ rest, findallDigitsAux cur t = cur.reverse :: rest := by
  cases t with
  | nil =>
    refine ⟨[], ?_⟩
    simp [findallDigitsAux, hc]
  | cons c t =>
    have hcd : ¬ c.isDigit := ht c rfl
    refine ⟨findallDigitsAux [] t, ?_⟩
    simp [findallDigitsAux, hcd, hc]

/-- The first element remaining after `dropWhile` falsifies the predicate. -/
theorem dropWhile_head_not {α : Type} (p : α → Bool) (l : List α) :
    ∀ b t, l.dropWhile p = b :: t → p b = false := by
  induction l with
  | nil => intro b t h; simp at h
  | cons a l ih =>
    intro b t h
    by_cases ha : p a
    · rw [List.dropWhile_cons_of_pos ha] at h
      exact ih b t h
    · rw [List.dropWhile_cons_of_neg ha] at h
      obtain ⟨hab, -⟩ := List.cons.inj h
      rw [← hab]
      exact Bool.eq_false_iff.mpr ha

/-- On a decomposition into a digit-free prefix, a nonempty digit run, and
a remainder not starting with a digit, `extract_total` yields the run. -/
theorem extract_total_decomp (p r s : List Char)
    (hp : ∀ c ∈ p, ¬ c.isDigit) (hrne : r ≠ [])
    (hr : ∀ c ∈ r, c.isDigit)
    (hs : ∀ c, s.head? = some c → ¬ c.isDigit) :
    extract_total (p ++ (r ++ s)) = some (digitsToNat r) := by
  have hcurne : r.reverse ++ ([] : List Char) ≠ [] := by
    simp [hrne]
  obtain ⟨rest, hrest⟩ := findallDigitsAux_emit (r.reverse ++ []) s
    hcurne hs
  simp only [extract_total, findallDigits]
  rw [findallDigitsAux_skip p (r ++ s) hp,
    findallDigitsAux_digits r [] s hr, hrest]
  simp

/-- C3: on any text containing a digit, `extract_total` returns the value
of the first maximal digit run: the text splits as a digit-free prefix, a
nonempty all-digit run not followed immediately by a digit, and a
remainder, and the extracted value is that run read as a decimal number. -/
theorem extract_total_first_digit_run (text : List Char)
    (hd : text.any Char.isDigit = true) :
    ∃ p r s, text = p ++ r ++ s
      ∧ (∀ c ∈ p, ¬ c.isDigit)
      ∧ r ≠ []
      ∧ (∀ c ∈ r, c.isDigit)
      ∧ (∀ c, s.head? = some c → ¬ c.isDigit)
      ∧ extract_total text = some (digitsToNat r) := by
  have hsplit : text.takeWhile (fun c => ! c.isDigit) ++
      text.dropWhile (fun c => ! c.isDigit) = text :=
    List.takeWhile_append_dropWhile (fun c => ! c.isDigit) text
  have hpnd : ∀ c ∈ text.takeWhile (fun c => ! c.isDigit),
      ¬ c.isDigit := by
    intro c hcp
    have := List.mem_takeWhile_imp hcp
    simpa using this
  have hqne : text.dropWhile (fun c => ! c.isDigit) ≠ [] := by
    intro hnil
    rcases List.any_eq_true.mp hd with ⟨c, hcmem, hcd⟩
    have hall := List.dropWhile_eq_nil_iff.mp hnil c hcmem
    simp [hcd] at hall
  obtain ⟨d, q2, hqeq⟩ := List.exists_cons_of_ne_nil hqne
  have hddig : d.isDigit := by
    have := dropWhile_head_not (fun c => ! c.isDigit) text d q2 hqeq
    simpa using this
  have hrs : (text.dropWhile (fun c => ! c.isDigit)).takeWhile Char.isDigit
      ++ (text.dropWhile (fun c => ! c.isDigit)).dropWhile Char.isDigit
      = text.dropWhile (fun c => ! c.isDigit) :=
    List.takeWhile_append_dropWhile Char.isDigit _
  have hrd : ∀ c ∈ (text.dropWhile
      (fun c => ! c.isDigit)).takeWhile Char.isDigit, c.isDigit :=
    fun _ hcr => List.mem_takeWhile_imp hcr
  have hrne : (text.dropWhile
      (fun c => ! c.isDigit)).takeWhile Char.isDigit ≠ [] := by
    rw [hqeq]
    simp [List.takeWhile_cons, hddig]
  have hsnd : ∀ c, ((text.dropWhile
      (fun c => ! c.isDigit)).dropWhile Char.isDigit).head? = some c →
      ¬ c.isDigit := by
    intro c hc
    cases hseq : (text.dropWhile
        (fun c => ! c.isDigit)).dropWhile Char.isDigit with
    | nil =>
      rw [hseq] at hc
      simp at hc
    | cons b t =>
      rw [hseq] at hc
      simp only [List.head?_cons, Option.some.injEq] at hc
      have hb := dropWhile_head_not Char.isDigit _ b t hseq
      rw [← hc]
      simp [hb]
  have htext : text = text.takeWhile (fun c => ! c.isDigit) ++
      ((text.dropWhile (fun c => ! c.isDigit)).takeWhile Char.isDigit ++
       (text.dropWhile (fun c => ! c.isDigit)).dropWhile Char.isDigit) := by
    rw [hrs, hsplit]
  refine ⟨text.takeWhile (fun c => ! c.isDigit),
    (text.dropWhile (fun c => ! c.isDigit)).takeWhile Char.isDigit,
    (text.dropWhile (fun c => ! c.isDigit)).dropWhile Char.isDigit,
    ?_, hpnd, hrne, hrd, hsnd, ?_⟩
  · rw [List.append_assoc]
    exact htext
  · conv_lhs => rw [htext]
    exact extract_total_decomp _ _ _ hpnd hrne hrd hsnd

/-- C3 witness: the first maximal digit run of a mixed text is extracted. -/
theorem extract_total_first_digit_run_witness :
    (("ab 1234 cd 9".toList).any Char.isDigit = true)
    ∧ ∃ p r s, "ab 1234 cd 9".toList = p ++ r ++ s
      ∧ (∀ c ∈ p, ¬ c.isDigit)
      ∧ r ≠ []
      ∧ (∀ c ∈ r, c.isDigit)
      ∧ (∀ c, s.head? = some c → ¬ c.isDigit)
      ∧ extract_total "ab 1234 cd 9".toList = some (digitsToNat r) :=
  ⟨by decide, extract_total_first_digit_run "ab 1234 cd 9".toList
    (by decide)⟩

/-! Lemmas about the history cap. -/

/-- The cap is `lastN 100` even when no truncation fires. -/
theorem capHistory_eq_lastN (h : List HistoryEntry) :
    capHistory h = lastN 100 h := by
  unfold capHistory lastN
  by_cases hl : h.length > 100
  · simp [hl]
  · have h0 : h.length - 100 = 0 := by omega
    simp [hl, h0]

/-- Length of the last `n` elements. -/
theorem length_lastN {α : Type} (n : Nat) (l : List α) :
    (lastN n l).length = min n l.length := by
  simp only [lastN, List.length_drop]
  omega

/-- Taking the last `n` before appending more does not change the final
last `n`. -/
theorem lastN_append_lastN {α : Type} (n : Nat) (xs ys : List α) :
    lastN n (lastN n xs ++ ys) = lastN n (xs ++ ys) := by
  by_cases hx : xs.length ≤ n
  · have h0 : xs.length - n = 0 := by omega
    simp [lastN, h0]
  · unfold lastN
    have h1 : xs.length - n ≤ xs.length := by omega
    rw [← List.drop_append_of_le_length h1, List.drop_drop]
    congr 1
    simp only [List.length_append, List.length_drop]
    omega

/-- `entriesOf` produces one history entry per step. -/
theorem entriesOf_length (url : String) :
    ∀ (steps : List (Int × String)) (st : MonitorState),
    (entriesOf url st steps).length = steps.length := by
  intro steps
  induction steps with
  | nil => intro st; rfl
  | cons step rest ih =>
    intro st
    obtain ⟨cur, now⟩ := step
    simp only [entriesOf, List.length_cons]
    rw [ih]

/-- After a nonempty sequence of diff-triggering runs, the history is the
last 100 of the initial history extended by all appended entries. -/
theorem runMany_history (url : String) :
    ∀ (steps : List (Int × String)) (st : MonitorState), steps ≠ [] →
    allDiffSteps url st steps = true →
    (runMany url st steps).history =
      lastN 100 (st.history ++ entriesOf url st steps) := by
  intro steps
  induction steps with
  | nil => intro st hne _; exact absurd rfl hne
  | cons step rest ih =>
    intro st _ hall
    obtain ⟨cur, now⟩ := step
    simp only [allDiffSteps, Bool.and_eq_true, decide_eq_true_eq] at hall
    obtain ⟨⟨h0, hd⟩, hall'⟩ := hall
    have hrun := run_diff_eq url st cur now [] PostOutcome.ok2xx h0 hd
    cases hrest : rest with
    | nil =>
      subst hrest
      simp only [runMany, entriesOf, hrun, capHistory_eq_lastN,
        List.append_nil]
    | cons step2 rest2 =>
      have hne2 : rest ≠ [] := by
        rw [hrest]
        exact List.cons_ne_nil step2 rest2
      rw [← hrest]
      simp only [runMany, entriesOf]
      rw [ih _ hne2 hall', hrun]
      simp only [capHistory_eq_lastN]
      rw [lastN_append_lastN]
      congr 1
      simp [List.append_assoc]

/-- C4: over any nonempty sequence of diff-triggering runs, the final
history is the last 100 entries of the full appended sequence in order, its
length is at most 100, and once more than 100 entries have been appended it
is exactly 100. -/
theorem history_capped_at_100 (url : String) (st : MonitorState)
    (steps : List (Int × String)) (hne : steps ≠ [])
    (hall : allDiffSteps url st steps = true) :
    (runMany url st steps).history =
      lastN 100 (st.history ++ entriesOf url st steps)
    ∧ (runMany url st steps).history.length ≤ 100
    ∧ (100 < steps.length → (runMany url st steps).history.length = 100) := by
  have hh := runMany_history url steps st hne hall
  have hlen : (runMany url st steps).history.length =
      min 100 (st.history.length + steps.length) := by
    rw [hh, length_lastN]
    congr 1
    rw [List.length_append, entriesOf_length]
  refine ⟨hh, ?_, ?_⟩
  · rw [hlen]
    omega
  · intro hgt
    rw [hlen]
    omega

/-- C4 witness: two diff-triggering runs from an initialized state. -/
theorem history_capped_at_100_witness :
    ([((6 : Int), "a"), ((7 : Int), "b")] ≠
      ([] : List (Int × String)))
    ∧ allDiffSteps "u" exampleState [((6 : Int), "a"), ((7 : Int), "b")] =
        true
    ∧ ((runMany "u" exampleState
          [((6 : Int), "a"), ((7 : Int), "b")]).history =
        lastN 100 (exampleState.history ++
          entriesOf "u" exampleState [((6 : Int), "a"), ((7 : Int), "b")])
      ∧ (runMany "u" exampleState
          [((6 : Int), "a"), ((7 : Int), "b")]).history.length ≤ 100
      ∧ (100 < ([((6 : Int), "a"), ((7 : Int), "b")] :
            List (Int × String)).length →
          (runMany "u" exampleState
            [((6 : Int), "a"), ((7 : Int), "b")]).history.length = 100)) :=
  ⟨by decide, by decide,
    history_capped_at_100 "u" exampleState
      [((6 : Int), "a"), ((7 : Int), "b")] (by decide) (by decide)⟩

end Yad2
